import Mathlib

/-!
Shallow embedding of the SPED-AGI quantum core
(`core/quantum/memory_interface.py`, `core/quantum/error_mitigation.py`,
`core/quantum/encoding_methods.py`).

Modelling conventions:
* numpy float arrays are modelled as `List ℝ`, complex state vectors as `List ℂ`;
* numpy operations that raise `ValueError` on shape disagreement (1-D `np.dot`,
  broadcasting of element-wise arithmetic, `np.pad` with a negative width) are
  modelled as `Except`-valued functions;
* real division is total in Lean (`x / 0 = 0`), whereas numpy emits non-finite
  values (`nan`/`inf`) with a warning; in both semantics no exception is raised,
  which is the only fact the theorems below rely on;
* the timestamp collaborator returns opaque, monotone identifiers; it is
  modelled by `Nat` tick values supplied by the caller of each operation;
* the logging collaborator has no effect on any result and is omitted.
-/

namespace SpedAGI

/-! ### Memory interface data model (`memory_interface.py`) -/

/-- State identifier produced by `QuantumMemoryInterface._generate_state_id`,
which formats the string `state_{timestamp}_{len(self.memory_states)}`.
The two interpolated components are recoverable from the formatted string
(the count is the digit run after the final underscore, and decimal numerals
contain no underscore), so the identifier is modelled by the component pair. -/
structure StateId where
  ts : Nat
  count : Nat
deriving DecidableEq, BEq

/-- Mirror of the `MemoryState` dataclass.  The free-form metadata dictionary
is abstracted as a string-keyed association list. -/
structure MemoryState where
  id : StateId
  qubits : List Nat
  encoding : String
  fidelity : ℝ
  timestamp : Nat
  metadata : List (String × String)

/-- Errors raised by the memory interface: `ValueError` for an unknown encoding
scheme in `store_state`, `KeyError` for a missing id in `retrieve_state`. -/
inductive MemErr where
  | unknownScheme (scheme : String)
  | notFound (id : StateId)
deriving DecidableEq

/-- State of a `QuantumMemoryInterface` instance: the qubit capacity of the
owning `QuantumCircuitManager` (`circuit_manager.n_qubits`) and the
`memory_states` dictionary, modelled as an insertion-ordered association list
(Python dicts preserve insertion order; every key inserted is fresh). -/
structure QMI where
  n_qubits : Nat
  memory_states : List (StateId × MemoryState)

/-- A freshly constructed interface holds no states. -/
def initQMI (n_qubits : Nat) : QMI :=
  { n_qubits := n_qubits, memory_states := [] }

/-- `_generate_state_id`. -/
def generate_state_id (ts : Nat) (numStates : Nat) : StateId :=
  { ts := ts, count := numStates }

/-- `_allocate_qubits`: `list(range(self.circuit_manager.n_qubits))[:n_required]`.
The slice silently truncates when `encLen` exceeds the capacity. -/
def allocate_qubits (n_qubits : Nat) (encLen : Nat) : List Nat :=
  (List.range n_qubits).take encLen

/-- `_direct_encoding`: returns the data unchanged (placeholder). -/
def direct_encoding (data : List ℝ) : List ℝ := data

/-- `_compressed_encoding`: returns the data unchanged (placeholder). -/
def compressed_encoding (data : List ℝ) : List ℝ := data

/-- `_error_protected_encoding`: returns the data unchanged (placeholder). -/
def error_protected_encoding (data : List ℝ) : List ℝ := data

/-- The `encoding_schemes` dispatch table of the memory interface. -/
def encodingSchemes : List (String × (List ℝ → List ℝ)) :=
  [("direct", direct_encoding),
   ("compressed", compressed_encoding),
   ("error_protected", error_protected_encoding)]

/-- The keys of `encoding_schemes`. -/
def encodingSchemeNames : List String :=
  ["direct", "compressed", "error_protected"]

/-- `store_state`: generates an id, rejects unknown schemes with `ValueError`,
encodes, allocates qubits, and persists the new `MemoryState` with fidelity 1.0.
The call to `error_mitigation.apply_error_mitigation` made between allocation
and persistence only reads the error-model table and returns a report, so it
does not affect the interface state and is not threaded here.  On the error
path the interface state is returned unchanged (the exception is re-raised
before the dictionary assignment). -/
def store_state (st : QMI) (ts : Nat) (data : List ℝ) (encoding_scheme : String)
    (metadata : List (String × String)) : QMI × Except MemErr StateId :=
  let state_id := generate_state_id ts st.memory_states.length
  match encodingSchemes.lookup encoding_scheme with
  | none => (st, Except.error (MemErr.unknownScheme encoding_scheme))
  | some enc =>
      let encoded_state := enc data
      let memory_state : MemoryState :=
        { id := state_id
          qubits := allocate_qubits st.n_qubits encoded_state.length
          encoding := encoding_scheme
          fidelity := 1
          timestamp := ts
          metadata := metadata }
      ({ st with memory_states := st.memory_states ++ [(state_id, memory_state)] },
       Except.ok state_id)

/-- `_decode_state`: returns `np.zeros(len(memory_state.qubits))` (placeholder). -/
def decode_state (memory_state : MemoryState) : List ℝ :=
  List.replicate memory_state.qubits.length 0

/-- `retrieve_state`: `KeyError` when the id is absent; otherwise decodes.
The fidelity < 0.9 branch only emits a log warning and is dropped. -/
def retrieve_state (st : QMI) (state_id : StateId) : Except MemErr (List ℝ) :=
  match st.memory_states.lookup state_id with
  | none => Except.error (MemErr.notFound state_id)
  | some memory_state => Except.ok (decode_state memory_state)

/-- `_calculate_storage_time`: a constant placeholder, ignoring the stored
timestamp entirely. -/
noncomputable def calculate_storage_time (_stored_timestamp : Nat) : ℝ := 0.1

/-- `monitor_state_fidelity`: multiplies every stored state's fidelity by
`exp(-0.1 * time_stored)` and returns the updated interface together with the
id-to-fidelity report. -/
noncomputable def monitor_state_fidelity (st : QMI) : QMI × List (StateId × ℝ) :=
  let updated := st.memory_states.map fun p =>
    (p.1, { p.2 with
              fidelity := p.2.fidelity *
                Real.exp (-(0.1) * calculate_storage_time p.2.timestamp) })
  ({ st with memory_states := updated }, updated.map fun p => (p.1, p.2.fidelity))

/-- The public operations of a `QuantumMemoryInterface` instance; `store`
carries the timestamp tick the timestamp collaborator would return. -/
inductive MemOp where
  | store (ts : Nat) (data : List ℝ) (scheme : String) (metadata : List (String × String))
  | retrieve (state_id : StateId)
  | monitor

/-- Effect of one operation on the interface state: `retrieve_state` only
reads, the other two update as defined above. -/
noncomputable def applyMemOp (st : QMI) : MemOp → QMI
  | MemOp.store ts data scheme metadata => (store_state st ts data scheme metadata).1
  | MemOp.retrieve _ => st
  | MemOp.monitor => (monitor_state_fidelity st).1

/-- Running a sequence of operations from a given interface state. -/
noncomputable def runMemOps (st : QMI) : List MemOp → QMI
  | [] => st
  | op :: ops => runMemOps (applyMemOp st op) ops

/-! ### Error mitigation (`error_mitigation.py`) -/

/-- Mirror of the `ErrorModel` dataclass. -/
structure ErrorModel where
  name : String
  rate : ℝ
  type : String
  affected_qubits : List Nat
  mitigation_strategy : String

/-- The three fixed entries of `self.error_models`, keyed as in the source. -/
noncomputable def error_models (n_qubits : Nat) : List (String × ErrorModel) :=
  [("decoherence",
    { name := "decoherence", rate := 0.001, type := "continuous",
      affected_qubits := List.range n_qubits,
      mitigation_strategy := "dynamical_decoupling" }),
   ("gate_error",
    { name := "gate_error", rate := 0.0005, type := "discrete",
      affected_qubits := List.range n_qubits,
      mitigation_strategy := "gate_optimization" }),
   ("measurement",
    { name := "measurement", rate := 0.002, type := "readout",
      affected_qubits := List.range n_qubits,
      mitigation_strategy := "readout_error_mitigation" })]

/-- Result dictionary built by `_apply_strategy`: the base entries plus the
optional keys merged in by the technique helpers (`method` and the
technique-specific descriptor key, absent when no branch matches). -/
structure StrategyResult where
  model : String
  timestamp : Nat
  affected_qubits : List Nat
  success : Bool
  method : Option String
  descriptor : Option String

/-- `_apply_strategy`: builds the base result (success `False`), then updates
it from the helper selected by the model's `mitigation_strategy`. -/
def apply_strategy (ts : Nat) (error_model : ErrorModel) : StrategyResult :=
  let base : StrategyResult :=
    { model := error_model.name, timestamp := ts,
      affected_qubits := error_model.affected_qubits,
      success := false, method := none, descriptor := none }
  if error_model.mitigation_strategy = "dynamical_decoupling" then
    { base with method := some "dynamical_decoupling", descriptor := some "CPMG",
                success := true }
  else if error_model.mitigation_strategy = "gate_optimization" then
    { base with method := some "gate_optimization", descriptor := some "pulse_shaping",
                success := true }
  else if error_model.mitigation_strategy = "readout_error_mitigation" then
    { base with method := some "readout_mitigation", descriptor := some "symmetric",
                success := true }
  else base

/-- Mirror of the `mitigation_spec` report dictionary. -/
structure MitigationReport where
  timestamp : Nat
  circuit_id : Nat
  applied_strategies : List StrategyResult

/-- The default strategy list used when the caller passes `None`. -/
def defaultStrategies : List String :=
  ["decoherence", "gate_error", "measurement"]

/-- `apply_error_mitigation`: the loop appends one `_apply_strategy` result for
each requested name found in `self.error_models`, in request order; names not
in the table are skipped silently. -/
noncomputable def apply_error_mitigation (n_qubits ts circuit_id : Nat)
    (strategies : Option (List String)) : MitigationReport :=
  let strats := strategies.getD defaultStrategies
  { timestamp := ts, circuit_id := circuit_id,
    applied_strategies :=
      strats.filterMap fun s =>
        ((error_models n_qubits).lookup s).map (apply_strategy ts) }

/-! ### Quantum encoder (`encoding_methods.py`)

Complex state vectors are modelled as `List ℂ`.  The numpy primitives used by
the encoder raise `ValueError` when 1-D shapes disagree; those primitives are
embedded as `Except`-valued operations. -/

/-- Errors arising in the encoder. -/
inductive EncErr where
  | unknownMethod (method : String)
  | shapeMismatch
  | broadcastError
  | negativePad
deriving DecidableEq

/-- Euclidean norm of a complex vector, `np.linalg.norm`. -/
noncomputable def l2norm (v : List ℂ) : ℝ :=
  Real.sqrt (v.map fun z => Complex.normSq z).sum

/-- Euclidean norm of a real vector, `np.linalg.norm`. -/
noncomputable def l2normR (v : List ℝ) : ℝ :=
  Real.sqrt (v.map fun x => x ^ 2).sum

/-- `_normalize_data`: `data / np.linalg.norm(data)` (element-wise). -/
noncomputable def normalize_data (data : List ℝ) : List ℝ :=
  data.map fun x => x / l2normR data

/-- Element-wise division of a complex vector by a real scalar. -/
noncomputable def scalarDiv (v : List ℂ) (c : ℝ) : List ℂ :=
  v.map fun z => z / (c : ℂ)

/-- Element-wise multiplication of a complex vector by a scalar. -/
def scalarMul (c : ℂ) (v : List ℂ) : List ℂ :=
  v.map fun z => c * z

/-- `np.pad(v, (0, target - len(v)), 'constant')`; a negative pad width raises
`ValueError`. -/
def np_pad (v : List ℂ) (target : Nat) : Except EncErr (List ℂ) :=
  if v.length ≤ target then Except.ok (v ++ List.replicate (target - v.length) 0)
  else Except.error EncErr.negativePad

/-- 1-D `np.dot`: the plain (non-conjugating) inner product; shapes must agree
exactly, otherwise `ValueError`. -/
def np_dot (a b : List ℂ) : Except EncErr ℂ :=
  if a.length = b.length then Except.ok (List.zipWith (fun x y => x * y) a b).sum
  else Except.error EncErr.shapeMismatch

/-- Element-wise addition under numpy's 1-D broadcasting rule: the lengths
must be equal or one of them must be 1, otherwise `ValueError`. -/
def np_add (a b : List ℂ) : Except EncErr (List ℂ) :=
  if a.length = b.length then Except.ok (List.zipWith (fun x y => x + y) a b)
  else if a.length = 1 then Except.ok (b.map fun y => a.headI + y)
  else if b.length = 1 then Except.ok (a.map fun x => x + b.headI)
  else Except.error EncErr.broadcastError

/-- `np.tile(v, k)`: `k` copies of `v` concatenated. -/
def np_tile (v : List ℂ) (k : Nat) : List ℂ :=
  (List.replicate k v).flatten

/-- `np.repeat(v, k)`: each element repeated `k` times consecutively. -/
def np_repeat (v : List ℂ) (k : Nat) : List ℂ :=
  (v.map fun z => List.replicate k z).flatten

/-- Strided slicing `v[::k]` (for `k ≥ 1`). -/
def np_stride (k : Nat) : List ℂ → List ℂ
  | [] => []
  | z :: rest => z :: np_stride k (List.drop (k - 1) rest)
termination_by l => l.length
decreasing_by
  simp only [List.length_drop, List.length_cons]
  omega

/-- Mirror of the `EncodingConfig` dataclass. -/
structure EncodingConfig where
  method : String
  n_qubits : Nat
  error_protection : Bool
  compression_ratio : ℝ
  basis_states : List String

/-- The `self.configs` table of `QuantumEncoder.__init__` for capacity
`n_qubits`; the `superdense` entry operates on qubit pairs. -/
noncomputable def configs (n_qubits : Nat) : List (String × EncodingConfig) :=
  [("amplitude",
    { method := "amplitude", n_qubits := n_qubits, error_protection := true,
      compression_ratio := 1.0, basis_states := ["0", "1"] }),
   ("phase",
    { method := "phase", n_qubits := n_qubits, error_protection := true,
      compression_ratio := 1.0, basis_states := ["+", "-"] }),
   ("superdense",
    { method := "superdense", n_qubits := n_qubits / 2, error_protection := true,
      compression_ratio := 2.0, basis_states := ["00", "01", "10", "11"] })]

/-- `_create_bell_states` (its `n_pairs` argument is unused in the source):
the four Bell basis vectors, each divided by `np.sqrt(2)`. -/
noncomputable def bell_states : List (List ℂ) :=
  [[1 / (Real.sqrt 2 : ℂ), 0, 0, 1 / (Real.sqrt 2 : ℂ)],
   [0, 1 / (Real.sqrt 2 : ℂ), 1 / (Real.sqrt 2 : ℂ), 0],
   [1 / (Real.sqrt 2 : ℂ), 0, 0, -(1 / (Real.sqrt 2 : ℂ))],
   [0, 1 / (Real.sqrt 2 : ℂ), -(1 / (Real.sqrt 2 : ℂ)), 0]]

/-- `_amplitude_encode`: zero-pad to `2 ** self.n_qubits` then renormalize. -/
noncomputable def amplitude_encode (n_qubits : Nat) (data : List ℝ) :
    Except EncErr (List ℂ) :=
  match np_pad (data.map fun x => (x : ℂ)) (2 ^ n_qubits) with
  | Except.error e => Except.error e
  | Except.ok padded_data => Except.ok (scalarDiv padded_data (l2norm padded_data))

/-- `_phase_encode`: `np.exp(2j * np.pi * data)` then zero-pad to
`2 ** self.n_qubits` (no renormalization). -/
noncomputable def phase_encode (n_qubits : Nat) (data : List ℝ) :
    Except EncErr (List ℂ) :=
  let phases := data.map fun x => Complex.exp ((2 * Real.pi * x : ℝ) * Complex.I)
  np_pad phases (2 ^ n_qubits)

/-- `_superdense_encode`: starts from `np.zeros(2 ** (2 * n_pairs))` and adds
`value * bell_states[i % 4]` for each of the first `n_pairs` data values
(broadcasting applies on each addition), then renormalizes. -/
noncomputable def superdense_encode (n_pairs : Nat) (data : List ℝ) :
    Except EncErr (List ℂ) :=
  let step := fun (acc : Except EncErr (List ℂ)) (iv : Nat × ℝ) =>
    match acc with
    | Except.error e => Except.error e
    | Except.ok enc => np_add enc (scalarMul ((iv.2 : ℝ) : ℂ) (bell_states.getD (iv.1 % 4) []))
  match (data.take n_pairs).enum.foldl step
      (Except.ok (List.replicate (2 ^ (2 * n_pairs)) (0 : ℂ))) with
  | Except.error e => Except.error e
  | Except.ok encoded => Except.ok (scalarDiv encoded (l2norm encoded))

/-- `_apply_error_protection`: repetition code (×3) for `amplitude`, tile ×9
for `phase`, tile ×7 otherwise; renormalize afterwards. -/
noncomputable def apply_error_protection (method : String) (state_vector : List ℂ) :
    List ℂ :=
  let protectedVec :=
    if method = "amplitude" then np_repeat state_vector 3
    else if method = "phase" then np_tile state_vector 9
    else np_tile state_vector 7
  scalarDiv protectedVec (l2norm protectedVec)

/-- `_remove_error_protection`: stride `[::3]` / `[::9]` / `[::7]` by method;
renormalize afterwards. -/
noncomputable def remove_error_protection (method : String) (state_vector : List ℂ) :
    List ℂ :=
  let unprotected :=
    if method = "amplitude" then np_stride 3 state_vector
    else if method = "phase" then np_stride 9 state_vector
    else np_stride 7 state_vector
  scalarDiv unprotected (l2norm unprotected)

/-- `_calculate_encoding_fidelity`: `np.abs(np.dot(original, encoded.conj())) ** 2`.
The `np.dot` raises `ValueError` when the two vectors differ in length. -/
noncomputable def calculate_encoding_fidelity (original : List ℝ) (encoded : List ℂ) :
    Except EncErr ℝ :=
  match np_dot (original.map fun x => (x : ℂ)) (encoded.map fun z => starRingEnd ℂ z) with
  | Except.error e => Except.error e
  | Except.ok d => Except.ok (Complex.abs d ^ 2)

/-- Mirror of the `encoding_result` dictionary returned by
`encode_quantum_state`. -/
structure EncodingResult where
  timestamp : Nat
  method : String
  state_vector : List ℂ
  n_qubits_used : Nat
  error_protected : Bool
  fidelity : ℝ

/-- `encode_quantum_state`: unknown methods raise `ValueError`; otherwise the
input is normalized, transformed by the selected method (the dispatch chain
covers exactly the three config keys), optionally error-protected, and packed
in a result record whose fidelity entry is computed by
`_calculate_encoding_fidelity`. -/
noncomputable def encode_quantum_state (n_qubits ts : Nat) (data : List ℝ)
    (method : String) (error_protection : Bool) : Except EncErr EncodingResult :=
  match (configs n_qubits).lookup method with
  | none => Except.error (EncErr.unknownMethod method)
  | some config =>
    let normalized_data := normalize_data data
    let encodedE :=
      if method = "amplitude" then amplitude_encode n_qubits normalized_data
      else if method = "phase" then phase_encode n_qubits normalized_data
      else superdense_encode config.n_qubits normalized_data
    match encodedE with
    | Except.error e => Except.error e
    | Except.ok encoded0 =>
      let encoded_state :=
        if error_protection && config.error_protection then
          apply_error_protection method encoded0
        else encoded0
      match calculate_encoding_fidelity normalized_data encoded_state with
      | Except.error e => Except.error e
      | Except.ok fid =>
        Except.ok
          { timestamp := ts, method := method, state_vector := encoded_state,
            n_qubits_used := encoded_state.length,
            error_protected := error_protection, fidelity := fid }

/-- `_amplitude_decode`: real parts of the non-zero entries. -/
noncomputable def amplitude_decode (state_vector : List ℂ) : List ℝ :=
  (state_vector.filter fun z => decide (z ≠ 0)).map fun z => z.re

/-- `_phase_decode`: `np.angle` of the non-zero entries, divided by `2π`. -/
noncomputable def phase_decode (state_vector : List ℂ) : List ℝ :=
  (state_vector.filter fun z => decide (z ≠ 0)).map fun z =>
    Complex.arg z / (2 * Real.pi)

/-- `_superdense_decode`: the magnitude of the projection of the state vector
onto each of the four Bell vectors (each projection is a 1-D `np.dot`, which
raises on a length mismatch). -/
noncomputable def superdense_decode (state_vector : List ℂ) :
    Except EncErr (List ℝ) :=
  bell_states.mapM fun bell => (np_dot state_vector bell).map Complex.abs

/-- `decode_quantum_state`: undoes error protection when the record says it was
applied, then inverts the per-method transform.  A record carrying an unknown
method name dies with `UnboundLocalError` in the source; this is modelled as an
error value. -/
noncomputable def decode_quantum_state (record : EncodingResult) :
    Except EncErr (List ℝ) :=
  let state_vector :=
    if record.error_protected then
      remove_error_protection record.method record.state_vector
    else record.state_vector
  if record.method = "amplitude" then Except.ok (amplitude_decode state_vector)
  else if record.method = "phase" then Except.ok (phase_decode state_vector)
  else if record.method = "superdense" then superdense_decode state_vector
  else Except.error (EncErr.unknownMethod record.method)

/-! ### Verification -/

set_option maxRecDepth 4000

/-- The fidelity decay factor applied by one `monitor_state_fidelity` pass is
positive. -/
lemma decay_factor_pos (t : Nat) :
    0 < Real.exp (-(0.1) * calculate_storage_time t) :=
  Real.exp_pos _

/-- The fidelity decay factor applied by one `monitor_state_fidelity` pass is
at most one. -/
lemma decay_factor_le_one (t : Nat) :
    Real.exp (-(0.1) * calculate_storage_time t) ≤ 1 := by
  rw [Real.exp_le_one_iff, calculate_storage_time]
  norm_num

/-- Invariant: every stored fidelity lies in the unit interval. -/
def FidelityInRange (st : QMI) : Prop :=
  ∀ p ∈ st.memory_states, 0 ≤ p.2.fidelity ∧ p.2.fidelity ≤ 1

lemma fidelityInRange_init (n : Nat) : FidelityInRange (initQMI n) := by
  intro p hp
  simp [initQMI] at hp

lemma fidelityInRange_step {st : QMI} (op : MemOp) (h : FidelityInRange st) :
    FidelityInRange (applyMemOp st op) := by
  cases op with
  | store ts data scheme metadata =>
      intro p hp
      rcases hl : encodingSchemes.lookup scheme with _ | enc
      · simp only [applyMemOp, store_state, hl] at hp
        exact h p hp
      · simp only [applyMemOp, store_state, hl, List.mem_append,
          List.mem_singleton] at hp
        rcases hp with hp | rfl
        · exact h p hp
        · exact ⟨zero_le_one, le_refl 1⟩
  | retrieve sid => exact h
  | monitor =>
      intro p hp
      simp only [applyMemOp, monitor_state_fidelity, List.mem_map] at hp
      obtain ⟨q, hq, rfl⟩ := hp
      obtain ⟨h0, h1⟩ := h q hq
      refine ⟨mul_nonneg h0 (decay_factor_pos _).le, ?_⟩
      nlinarith [decay_factor_pos q.2.timestamp, decay_factor_le_one q.2.timestamp]

/-- The fidelity invariant is preserved by any operation sequence. -/
lemma fidelityInRange_run {st : QMI} (ops : List MemOp) (h : FidelityInRange st) :
    FidelityInRange (runMemOps st ops) := by
  induction ops generalizing st with
  | nil => exact h
  | cons op ops ih => exact ih (fidelityInRange_step op h)

/-- C2: every `MemoryState` held by a memory interface has fidelity in `[0,1]`
after any sequence of operations: `store_state` initializes it to `1.0` and
each `monitor_state_fidelity` pass multiplies it by
`exp(-0.1 * storage_time) ∈ (0,1]`. -/
theorem stored_fidelity_in_unit_interval (n : Nat) (ops : List MemOp)
    (p : StateId × MemoryState)
    (hp : p ∈ (runMemOps (initQMI n) ops).memory_states) :
    0 ≤ p.2.fidelity ∧ p.2.fidelity ≤ 1 :=
  fidelityInRange_run ops (fidelityInRange_init n) p hp

/-- Witness for C2: a store followed by a monitor pass, evaluated concretely. -/
theorem stored_fidelity_in_unit_interval_witness :
    0 ≤ (1 : ℝ) * Real.exp (-(0.1) * (0.1 : ℝ)) ∧
      (1 : ℝ) * Real.exp (-(0.1) * (0.1 : ℝ)) ≤ 1 :=
  stored_fidelity_in_unit_interval 2
    [MemOp.store 0 [1] "direct" [], MemOp.monitor]
    (⟨0, 0⟩,
     { id := ⟨0, 0⟩, qubits := [0], encoding := "direct",
       fidelity := (1 : ℝ) * Real.exp (-(0.1) * (0.1 : ℝ)),
       timestamp := 0, metadata := [] })
    (List.mem_singleton.mpr rfl)

/-- Invariant: the `count` components of the stored ids enumerate
`0, 1, …, len-1` in order. -/
def CountsAreRange (st : QMI) : Prop :=
  st.memory_states.map (fun p => p.1.count) =
    List.range st.memory_states.length

lemma countsAreRange_init (n : Nat) : CountsAreRange (initQMI n) := rfl

lemma countsAreRange_step {st : QMI} (op : MemOp) (h : CountsAreRange st) :
    CountsAreRange (applyMemOp st op) := by
  cases op with
  | store ts data scheme metadata =>
      rcases hl : encodingSchemes.lookup scheme with _ | enc
      · simpa [CountsAreRange, applyMemOp, store_state, hl] using h
      · simp only [CountsAreRange, applyMemOp, store_state, hl] at h ⊢
        simp [List.range_succ, h, generate_state_id]
  | retrieve sid => exact h
  | monitor =>
      simp only [CountsAreRange, applyMemOp, monitor_state_fidelity,
        List.map_map, List.length_map] at h ⊢
      exact h

/-- The id-count invariant is preserved by any operation sequence. -/
lemma countsAreRange_run {st : QMI} (ops : List MemOp) (h : CountsAreRange st) :
    CountsAreRange (runMemOps st ops) := by
  induction ops generalizing st with
  | nil => exact h
  | cons op ops ih => exact ih (countsAreRange_step op h)

/-- C8: after any sequence of operations, the ids of the stored states are
pairwise distinct; since every successful `store_state` call returns the key
under which it persists its state and states are never removed, each issued id
is distinct from all previously issued ones. -/
theorem state_ids_nodup (n : Nat) (ops : List MemOp) :
    ((runMemOps (initQMI n) ops).memory_states.map Prod.fst).Nodup := by
  have h : (runMemOps (initQMI n) ops).memory_states.map (fun p => p.1.count) =
      List.range (runMemOps (initQMI n) ops).memory_states.length :=
    countsAreRange_run ops (countsAreRange_init n)
  have h2 : ((runMemOps (initQMI n) ops).memory_states.map fun p => p.1.count).Nodup := by
    rw [h]
    exact List.nodup_range _
  refine List.Nodup.of_map (fun id => id.count) ?_
  rw [List.map_map]
  exact h2

/-- C1: with capacity 2, storing a 4-element vector succeeds and silently
allocates only the 2 available qubit indices instead of signalling a
capacity error (the requested allocation length is the full encoded length 4). -/
theorem store_silently_under_allocates :
    (store_state (initQMI 2) 0 [1, 1, 1, 1] "direct" []).2 = Except.ok ⟨0, 0⟩ ∧
    (store_state (initQMI 2) 0 [1, 1, 1, 1] "direct" []).1.memory_states.map
      (fun p => p.2.qubits) = [[0, 1]] ∧
    (direct_encoding [1, 1, 1, 1]).length > (initQMI 2).n_qubits :=
  ⟨rfl, rfl, by norm_num [direct_encoding, initQMI]⟩

/-- C3: retrieving a state stored under the pass-through `direct` scheme
returns the zero vector produced by `_decode_state`, not the stored data. -/
theorem retrieve_returns_zero_vector :
    retrieve_state ((store_state (initQMI 4) 0 [1] "direct" []).1) ⟨0, 0⟩ =
      Except.ok [(0 : ℝ)] ∧ [(0 : ℝ)] ≠ [(1 : ℝ)] :=
  ⟨rfl, by norm_num⟩

/-- C4: `_calculate_storage_time` is the constant `0.1` regardless of the
stored timestamp, so each `monitor_state_fidelity` pass multiplies every
fidelity by the fixed factor `exp(-0.1 * 0.1)` independently of the real
elapsed time; the factor the claim predicts for an elapsed time of `0.2`
differs from it. -/
theorem monitor_uses_constant_storage_time :
    (∀ ts : Nat, calculate_storage_time ts = 0.1) ∧
    (∀ st : QMI, (monitor_state_fidelity st).1.memory_states =
        st.memory_states.map fun p =>
          (p.1, { p.2 with
                    fidelity := p.2.fidelity * Real.exp (-(0.1) * (0.1 : ℝ)) })) ∧
    Real.exp (-(0.1) * (0.2 : ℝ)) < Real.exp (-(0.1) * (0.1 : ℝ)) := by
  refine ⟨fun ts => rfl, fun st => rfl, ?_⟩
  rw [Real.exp_lt_exp]
  norm_num

/-- C10: storing under an unregistered scheme raises and leaves the
interface unchanged; no state is persisted and the freshly generated id is
discarded. -/
theorem store_unknown_scheme_rejected (st : QMI) (ts : Nat) (data : List ℝ)
    (metadata : List (String × String)) (scheme : String)
    (h : scheme ∉ encodingSchemeNames) :
    store_state st ts data scheme metadata =
      (st, Except.error (MemErr.unknownScheme scheme)) := by
  have h1 : scheme ≠ "direct" := by
    intro hs; exact h (by simp [encodingSchemeNames, hs])
  have h2 : scheme ≠ "compressed" := by
    intro hs; exact h (by simp [encodingSchemeNames, hs])
  have h3 : scheme ≠ "error_protected" := by
    intro hs; exact h (by simp [encodingSchemeNames, hs])
  simp [store_state, encodingSchemes, List.lookup_cons,
    beq_false_of_ne h1, beq_false_of_ne h2, beq_false_of_ne h3]

/-- Witness for C10: an unknown scheme name, evaluated concretely. -/
theorem store_unknown_scheme_rejected_witness :
    "bogus" ∉ encodingSchemeNames ∧
      store_state (initQMI 2) 0 [(1 : ℝ)] "bogus" [] =
        (initQMI 2, Except.error (MemErr.unknownScheme "bogus")) :=
  ⟨by decide, store_unknown_scheme_rejected (initQMI 2) 0 [(1 : ℝ)] [] "bogus"
    (by decide)⟩

/-- Every `_apply_strategy` result is tagged with the model's name. -/
lemma apply_strategy_model (ts : Nat) (m : ErrorModel) :
    (apply_strategy ts m).model = m.name := by
  unfold apply_strategy
  split_ifs <;> rfl

/-- Looking up a strategy name in the error-model table yields a model named
after the key exactly when the key is one of the three registered names. -/
lemma lookup_error_models_name (n : Nat) (s : String) :
    ((error_models n).lookup s).map (fun m => m.name) =
      if s ∈ defaultStrategies then some s else none := by
  by_cases h1 : s = "decoherence"
  · subst h1; rfl
  by_cases h2 : s = "gate_error"
  · subst h2; rfl
  by_cases h3 : s = "measurement"
  · subst h3; rfl
  simp [error_models, List.lookup_cons, beq_false_of_ne h1, beq_false_of_ne h2,
    beq_false_of_ne h3, defaultStrategies, h1, h2, h3]

/-- C9: for any explicit strategy list, the applied-strategies report contains
exactly one result per requested name registered in the error-model table, in
request order, each tagged with that model's name; unknown names are skipped
silently (the operation is total and never fails). -/
theorem mitigation_applies_known_strategies (n ts cid : Nat)
    (strats : List String) :
    (apply_error_mitigation n ts cid (some strats)).applied_strategies.map
        (fun r => r.model) =
      strats.filter (fun s => decide (s ∈ defaultStrategies)) := by
  simp only [apply_error_mitigation, Option.getD_some]
  induction strats with
  | nil => rfl
  | cons s rest ih =>
      have hname := lookup_error_models_name n s
      by_cases hmem : s ∈ defaultStrategies
      · rcases ho : (error_models n).lookup s with _ | m
        · rw [ho] at hname; simp [hmem] at hname
        · rw [ho] at hname
          simp only [hmem, if_true, Option.map_some'] at hname
          rw [Option.some.injEq] at hname
          simp [List.filterMap_cons, ho, List.filter_cons, hmem,
            apply_strategy_model, hname, ih]
      · rcases ho : (error_models n).lookup s with _ | m
        · simp [List.filterMap_cons, ho, List.filter_cons, hmem, ih]
        · rw [ho] at hname; simp [hmem] at hname

/-- C5: encoding `[0.1, 0.2, 0.3, 0.4]` with qubit count 4 via the `phase`
method raises: `_calculate_encoding_fidelity` feeds the length-4 normalized
input and the length-144 protected state vector to 1-D `np.dot`, which rejects
mismatched shapes, so no encoding record exists to decode. -/
theorem phase_encode_crashes_on_fidelity :
    encode_quantum_state 4 0 [0.1, 0.2, 0.3, 0.4] "phase" true =
      Except.error EncErr.shapeMismatch := rfl

/-- C7: producing a superdense-encoded state from a 4-element input with qubit
count 4 raises: `_superdense_encode` adds a length-4 Bell vector into the
length-16 zero buffer, which numpy broadcasting rejects, so there is no
encoded state to decode. -/
theorem superdense_encode_broadcast_error :
    encode_quantum_state 4 0 [0.1, 0.2, 0.3, 0.4] "superdense" true =
      Except.error EncErr.broadcastError := rfl

/-- C6: encoding the zero vector signals no `InvalidInput` error for any
method: in configurations whose vector lengths line up the call returns a
record normally (numpy merely produces non-finite values from the zero-norm
division), and the only error the call can raise is the length-mismatch
`ValueError` from the fidelity inner product, which strikes zero and non-zero
inputs alike. -/
theorem encode_zero_vector_no_invalid_input :
    (∃ r, encode_quantum_state 2 0 [0, 0, 0, 0] "amplitude" false = Except.ok r) ∧
    (∃ r, encode_quantum_state 2 0 [0, 0, 0, 0] "phase" false = Except.ok r) ∧
    (∃ r, encode_quantum_state 2 0 [0, 0, 0, 0] "superdense" false = Except.ok r) ∧
    encode_quantum_state 2 0 [0, 0, 0, 0] "amplitude" true =
      Except.error EncErr.shapeMismatch :=
  ⟨⟨_, rfl⟩, ⟨_, rfl⟩, ⟨_, rfl⟩, rfl⟩

end SpedAGI
